import Mathlib

/-!
# Verification of the syntax-aware FIM permuter (`fim.py`)

This file gives a shallow embedding of the two core functions of the
repository, `get_prefix_middle_suffix` and `permute`, together with the
sentinel-resolution helper `get_fim_token_ids`, and proves or refutes the
frozen claims about them.

Modelling conventions:

* A byte string (`bytes` in the source) is a `List Nat` of byte values.
* Decoded text is represented by its UTF-8 bytes.  Python's
  `bytes.decode("utf-8")` is modelled as a validity check (`validUtf8`,
  the RFC 3629 table, which is exactly what CPython's strict decoder
  accepts): on valid input the text is represented by the same byte
  list (UTF-8 decoding is injective, so nothing is lost), on invalid
  input a `UnicodeDecodeError` is raised.  Consequently the substring
  test `"//" in string` becomes the byte-level infix test for
  `[47, 47]`, which agrees with the character-level test on valid
  UTF-8 (a `0x2F` byte is always the character `/`).
* A parse-tree node is modelled by its `type`, its byte range and the
  list of the `type`s of its ancestors (parent first); the source's
  upward `parent` walk only ever inspects the ancestors' `type`s.
  The external parser + query (`PARSER.parse` / `QUERY.captures`) is an
  out-of-scope collaborator: the list of captured `(node, name)` pairs
  is passed in as an argument.
* `numpy.random.RandomState` is modelled as two queues of pending
  draws: `us` are the uniform variates in `[0,1)` that drive
  `binomial(1, p)` (which returns `1` iff the variate is `< p`), and
  `ns` drive `choice` (index into the list, modulo its length).  An
  exhausted queue yields the draw `0`.  The state is threaded
  explicitly; the structure of the source, which mutates `np_rng` in
  place, is recovered by returning the updated state on every path
  (on the exception path the error value carries the state current at
  raise time, since the caller's `np_rng` alias has advanced that far).
* Exceptions are modelled with `Except`: `get_prefix_middle_suffix`
  can raise (decoding can fail), and in `permute` the source's
  `try ... except` covers only the call to `get_prefix_middle_suffix`
  — `tokenizer.decode(sample)` happens before the `try` block.
-/

namespace FimSpec

/-- Byte strings (`bytes` values of the source). -/
abbrev Bytes := List Nat

/-- Python slice `s[a:b]` (with the clamping semantics of Python slices). -/
def slice (s : Bytes) (a b : Nat) : Bytes := (s.take b).drop a

/-- A parse-tree node as the splitting algorithm observes it: its
`type`, its byte range, and the `type`s of its ancestors, innermost
first (the source walks `node.parent` upward inspecting only `type`). -/
structure Node where
  type : String
  start_byte : Nat
  end_byte : Nat
  ancestors : List String
deriving DecidableEq, Repr

instance : Inhabited Node := ⟨⟨"", 0, 0, []⟩⟩

/-- `numpy.random.RandomState`, modelled as queues of pending draws:
`us` feeds `binomial` (uniform variates in `[0,1)`), `ns` feeds
`choice`.  An exhausted queue draws `0`. -/
structure RandomState where
  us : List Rat
  ns : List Nat
deriving DecidableEq, Repr

/-- `np_rng.binomial(1, p)`: one Bernoulli trial, true iff the next
uniform variate is `< p`.  Consumes one draw from `us`. -/
def binomial (p : Rat) (rng : RandomState) : Bool × RandomState :=
  (decide (rng.us.headD 0 < p), ⟨rng.us.tail, rng.ns⟩)

/-- `np_rng.choice(l)`: uniform element of the non-empty list `l`
(the queued draw, reduced modulo `l.length`, indexes into `l`).
Consumes one draw from `ns`. -/
def choice (l : List Nat) (rng : RandomState) : Nat × RandomState :=
  (l.getD (rng.ns.headD 0 % l.length) 0, ⟨rng.us, rng.ns.tail⟩)

/-- The three annotation node kinds of the query in the source. -/
def isAnnotationKind (t : String) : Bool :=
  t == "type_annotation" || t == "opting_type_annotation" || t == "omitting_type_annotation"

/-- `is_child_type_annotation` of the source (renamed): walks the
ancestor chain and reports whether any ancestor is one of the three
annotation kinds. -/
def is_child_type_ann (node : Node) : Bool :=
  node.ancestors.any isAnnotationKind

/-- Continuation byte of a UTF-8 sequence. -/
def isCont (b : Nat) : Bool := 0x80 ≤ b && b ≤ 0xBF

/-- Strict UTF-8 validity (the RFC 3629 table; what
`bytes.decode("utf-8")` accepts without raising). -/
def validUtf8 : Bytes → Bool
  | [] => true
  | b :: rest =>
    if b ≤ 0x7F then validUtf8 rest
    else if 0xC2 ≤ b && b ≤ 0xDF then
      match rest with
      | c1 :: rest1 => isCont c1 && validUtf8 rest1
      | [] => false
    else if b = 0xE0 then
      match rest with
      | c1 :: c2 :: rest2 => (0xA0 ≤ c1 && c1 ≤ 0xBF) && isCont c2 && validUtf8 rest2
      | _ => false
    else if (0xE1 ≤ b && b ≤ 0xEC) || b = 0xEE || b = 0xEF then
      match rest with
      | c1 :: c2 :: rest2 => isCont c1 && isCont c2 && validUtf8 rest2
      | _ => false
    else if b = 0xED then
      match rest with
      | c1 :: c2 :: rest2 => (0x80 ≤ c1 && c1 ≤ 0x9F) && isCont c2 && validUtf8 rest2
      | _ => false
    else if b = 0xF0 then
      match rest with
      | c1 :: c2 :: c3 :: rest3 =>
          (0x90 ≤ c1 && c1 ≤ 0xBF) && isCont c2 && isCont c3 && validUtf8 rest3
      | _ => false
    else if 0xF1 ≤ b && b ≤ 0xF3 then
      match rest with
      | c1 :: c2 :: c3 :: rest3 => isCont c1 && isCont c2 && isCont c3 && validUtf8 rest3
      | _ => false
    else if b = 0xF4 then
      match rest with
      | c1 :: c2 :: c3 :: rest3 =>
          (0x80 ≤ c1 && c1 ≤ 0x8F) && isCont c2 && isCont c3 && validUtf8 rest3
      | _ => false
    else false

/-- `contains_url` of the source: decode the node's byte range
(raising `UnicodeDecodeError` on invalid UTF-8, as `.decode("utf-8")`
does) and test for the substring `"//"`. -/
def contains_url (sample : Bytes) (node : Node) : Except String Bool :=
  let string := slice sample node.start_byte node.end_byte
  if validUtf8 string then Except.ok (decide ([47, 47] <:+: string))
  else Except.error "UnicodeDecodeError"

/-- `is_capturable` of the source:
`not is_child_type_annotation(node) and not contains_url(node)`.
Python's `and` short-circuits, so `contains_url` (which can raise) is
only evaluated when the nesting test is false. -/
def is_capturable (sample : Bytes) (node : Node) : Except String Bool :=
  if is_child_type_ann node then Except.ok false
  else
    match contains_url sample node with
    | Except.error e => Except.error e
    | Except.ok url => Except.ok !url

/-- `is_splitable` of the source — textually the same predicate as
`is_capturable`. -/
def is_splitable (sample : Bytes) (node : Node) : Except String Bool :=
  if is_child_type_ann node then Except.ok false
  else
    match contains_url sample node with
    | Except.error e => Except.error e
    | Except.ok url => Except.ok !url

/-- The `captures_no_child` loop of the source: keep, in order, the
captured nodes that are capturable; the first raised exception
aborts the loop. -/
def captures_no_child (sample : Bytes) : List (Node × String) → Except String (List Node)
  | [] => Except.ok []
  | (node, _) :: rest =>
    match is_capturable sample node with
    | Except.error e => Except.error e
    | Except.ok c =>
      match captures_no_child sample rest with
      | Except.error e => Except.error e
      | Except.ok tail => Except.ok (if c then node :: tail else tail)

/-- The `splittable_indices` loop of the source, with the running
`enumerate` counter made explicit. -/
def splittable_indices_from (sample : Bytes) : Nat → List Node → Except String (List Nat)
  | _, [] => Except.ok []
  | i, node :: rest =>
    match is_splitable sample node with
    | Except.error e => Except.error e
    | Except.ok s =>
      match splittable_indices_from sample (i + 1) rest with
      | Except.error e => Except.error e
      | Except.ok tail => Except.ok (if s then i :: tail else tail)

/-- `splittable_indices` of the source: indices into
`captures_no_child` whose node is splitable. -/
def splittable_indices (sample : Bytes) (cs : List Node) : Except String (List Nat) :=
  splittable_indices_from sample 0 cs

/-- The byte values `bytes.lstrip()` strips: space, `\t`, `\n`, `\r`,
`\x0b`, `\x0c`. -/
def isPySpace (b : Nat) : Bool :=
  b == 32 || b == 9 || b == 10 || b == 13 || b == 11 || b == 12

/-- The gap between eligible span `i` and eligible span `i+1`:
`sample[cs[i].end_byte : cs[i+1].start_byte]`. -/
def gapAt (sample : Bytes) (cs : List Node) (i : Nat) : Bytes :=
  slice sample (cs.getD i default).end_byte (cs.getD (i + 1) default).start_byte

/-- The suffix-stripping loop of the source:
`for i in range(start, l - 1): suffix_b += sample[cs[i].end_byte : cs[i+1].start_byte]`
— the loop indices `start, …, l − 2` are `List.range' start (l - 1 - start)`,
and the loop accumulates the gaps left to right. -/
def gapLoop (sample : Bytes) (cs : List Node) (start : Nat) : Bytes :=
  (List.range' start (cs.length - 1 - start)).foldl
    (fun suffix_b i => suffix_b ++ gapAt sample cs i) []

/-- `get_prefix_middle_suffix` of the source.  The captured
`(node, capture-name)` pairs of the external parser/query are an
argument.  On success the result is `some` of the decoded
`(prefix, middle, suffix)` triple (as UTF-8 bytes) together with the
updated random state; `none` is the "no eligible span" return; an
error carries the exception message together with the random state at
raise time (the caller's `np_rng` alias has advanced that far). -/
def get_prefix_middle_suffix (np_rng : RandomState) (sample : Bytes)
    (captures : List (Node × String)) (strip_suffix_rate : Rat) :
    Except (String × RandomState) (Option ((Bytes × Bytes × Bytes) × RandomState)) :=
  match captures_no_child sample captures with
  | Except.error e => Except.error (e, np_rng)
  | Except.ok cs =>
    match splittable_indices sample cs with
    | Except.error e => Except.error (e, np_rng)
    | Except.ok idxs =>
      if idxs.length = 0 then Except.ok none
      else
        let (random_pick_i, rng1) := choice idxs np_rng
        let picked := cs.getD random_pick_i default
        let prefix_b0 : Bytes := sample.take picked.start_byte
        let middle_b0 : Bytes := slice sample picked.start_byte picked.end_byte
        -- `if middle_b.startswith(b":"): prefix_b += b": "; middle_b = middle_b[1:].lstrip()`
        let prefix_b : Bytes :=
          if middle_b0.head? = some 58 then prefix_b0 ++ [58, 32] else prefix_b0
        let middle_b : Bytes :=
          if middle_b0.head? = some 58 then middle_b0.tail.dropWhile isPySpace else middle_b0
        let (doStrip, rng2) := binomial strip_suffix_rate rng1
        let suffix_b : Bytes :=
          if doStrip then
            gapLoop sample cs random_pick_i
              ++ sample.drop (cs.getD (cs.length - 1) default).end_byte
          else sample.drop picked.end_byte
        if validUtf8 prefix_b && validUtf8 middle_b && validUtf8 suffix_b then
          Except.ok (some ((prefix_b, middle_b, suffix_b), rng2))
        else Except.error ("UnicodeDecodeError", rng2)

/-- The tokenizer collaborator as `permute` uses it.  `decode` models
`tokenizer.decode(sample)` followed by the source's normalization to
UTF-8 bytes (`decoded_bytes.encode("utf-8")` when a `str` comes back);
it may raise.  `encode` maps a piece of text (as UTF-8 bytes) to token
ids. -/
structure Tokenizer where
  decode : List Int → Except String Bytes
  encode : Bytes → List Int

/-- `permute` of the source.  `query` stands for the composition of
`PARSER.parse` and `QUERY.captures` (the external parser/query
collaborator).  The source's `try` block covers only the call to
`get_prefix_middle_suffix`; `tokenizer.decode(sample)` is evaluated
before it, so a decode exception propagates (`Except.error`).  A
caught exception and the "no eligible span" case both return
`(None, np_rng)`; otherwise the three segments are encoded
independently and assembled in SPM or PSM order. -/
def permute (tokenizer : Tokenizer) (query : Bytes → List (Node × String))
    (sample : List Int) (np_rng : RandomState)
    (suffix_tok_id prefix_tok_id middle_tok_id : Int)
    (fim_rate fim_spm_rate strip_suffix_rate : Rat) :
    Except String (Option (List Int) × RandomState) :=
  let (doFim, rng1) := binomial fim_rate np_rng
  if doFim then
    match tokenizer.decode sample with
    | Except.error e => Except.error e
    | Except.ok decoded_bytes =>
      match get_prefix_middle_suffix rng1 decoded_bytes (query decoded_bytes)
          strip_suffix_rate with
      | Except.error (_, rngE) =>
          -- `except Exception as e: print(...); return None, np_rng`
          Except.ok (none, rngE)
      | Except.ok none =>
          -- `if res is None: return None, np_rng`
          Except.ok (none, rng1)
      | Except.ok (some ((prefix_str, middle_str, suffix_str), rng2)) =>
          let prefix_toks := tokenizer.encode prefix_str
          let middle_toks := tokenizer.encode middle_str
          let suffix_toks := tokenizer.encode suffix_str
          let (spm, rng3) := binomial fim_spm_rate rng2
          if spm then
            -- SPM (variant 2 from the FIM paper)
            Except.ok (some ([prefix_tok_id, suffix_tok_id] ++ suffix_toks
              ++ [middle_tok_id] ++ prefix_toks ++ middle_toks), rng3)
          else
            -- PSM
            Except.ok (some ([prefix_tok_id] ++ prefix_toks
              ++ [suffix_tok_id] ++ suffix_toks
              ++ [middle_tok_id] ++ middle_toks), rng3)
  else
    -- don't do FIM preproc: `new_sample = sample`
    Except.ok (some sample, rng1)

/-- `get_fim_token_ids` of the source: look the four fixed sentinel
strings up in the vocabulary, in the source's order; the first failed
lookup raises `KeyError`, which the handler turns into four `None`s. -/
def get_fim_token_ids (vocab : String → Option Int) :
    Option Int × Option Int × Option Int × Option Int :=
  match vocab "<fim_suffix>", vocab "<fim_prefix>", vocab "<fim_middle>", vocab "<fim_pad>" with
  | some s, some p, some m, some d => (some s, some p, some m, some d)
  | _, _, _, _ => (none, none, none, none)

/-! ## Concrete evaluation inputs

Byte strings of small TypeScript samples (all ASCII, so the byte value
list is the UTF-8 encoding of the text shown in the comment), together
with the `(node, capture-name)` lists the external
tree-sitter-typescript query produces on them.  The ancestor chains
list the enclosing node types, innermost first. -/

/-- `"let x:number"` — a type annotation with no space after the colon. -/
def sampleTight : Bytes := [108, 101, 116, 32, 120, 58, 110, 117, 109, 98, 101, 114]

/-- The single capture on `sampleTight`: `":number"` at bytes `[5, 12)`. -/
def capsTight : List (Node × String) :=
  [(⟨"type_annotation", 5, 12,
     ["variable_declarator", "lexical_declaration", "program"]⟩, "annotation")]

/-- `"let x: number"` — a type annotation `: T` with a single space. -/
def sampleSpaced : Bytes := [108, 101, 116, 32, 120, 58, 32, 110, 117, 109, 98, 101, 114]

/-- The single capture on `sampleSpaced`: `": number"` at bytes `[5, 13)`. -/
def capsSpaced : List (Node × String) :=
  [(⟨"type_annotation", 5, 13,
     ["variable_declarator", "lexical_declaration", "program"]⟩, "annotation")]

/-- `"let a: number; let s = \": number\"; let b: number;"` — two
eligible annotations, and a string literal between them whose contents
equal the second annotation's source text. -/
def sampleStrLit : Bytes :=
  [108, 101, 116, 32, 97, 58, 32, 110, 117, 109, 98, 101, 114, 59, 32, 108, 101, 116,
   32, 115, 32, 61, 32, 34, 58, 32, 110, 117, 109, 98, 101, 114, 34, 59, 32, 108,
   101, 116, 32, 98, 58, 32, 110, 117, 109, 98, 101, 114, 59]

/-- First annotation of `sampleStrLit`: `": number"` at `[5, 13)`. -/
def annStrA : Node :=
  ⟨"type_annotation", 5, 13, ["variable_declarator", "lexical_declaration", "program"]⟩

/-- Second annotation of `sampleStrLit`: `": number"` at `[40, 48)`. -/
def annStrB : Node :=
  ⟨"type_annotation", 40, 48, ["variable_declarator", "lexical_declaration", "program"]⟩

/-- The two captures on `sampleStrLit` (the quoted text is a string
literal, not an annotation node). -/
def capsStrLit : List (Node × String) :=
  [(annStrA, "annotation"), (annStrB, "annotation")]

/-- `"interface Foo { foo(x: number, y: number): number; }"` — the
spec's scenario input. -/
def sampleScenario : Bytes :=
  [105, 110, 116, 101, 114, 102, 97, 99, 101, 32, 70, 111, 111, 32, 123, 32, 102,
   111, 111, 40, 120, 58, 32, 110, 117, 109, 98, 101, 114, 44, 32, 121, 58, 32, 110,
   117, 109, 98, 101, 114, 41, 58, 32, 110, 117, 109, 98, 101, 114, 59, 32, 125]

/-- Modelled from the spec: the three captures the out-of-scope
tree-sitter-typescript query yields on `sampleScenario` — `": number"`
at `[21, 29)`, `[32, 40)` and `[41, 49)`, none nested inside another
annotation, none containing `"//"`. -/
def capsScenario : List (Node × String) :=
  [(⟨"type_annotation", 21, 29,
     ["required_parameter", "formal_parameters", "method_signature",
      "interface_body", "interface_declaration", "program"]⟩, "annotation"),
   (⟨"type_annotation", 32, 40,
     ["required_parameter", "formal_parameters", "method_signature",
      "interface_body", "interface_declaration", "program"]⟩, "annotation"),
   (⟨"type_annotation", 41, 49,
     ["method_signature", "interface_body", "interface_declaration",
      "program"]⟩, "annotation")]

/-- `"let a: number; let u: \"ht//tp\"; let b: string;"` — the middle
annotation's text contains `"//"`, so the eligibility filter drops it,
and its bytes lie between the two eligible annotations. -/
def sampleUrlGap : Bytes :=
  [108, 101, 116, 32, 97, 58, 32, 110, 117, 109, 98, 101, 114, 59, 32, 108, 101,
   116, 32, 117, 58, 32, 34, 104, 116, 47, 47, 116, 112, 34, 59, 32, 108, 101, 116,
   32, 98, 58, 32, 115, 116, 114, 105, 110, 103, 59]

/-- The dropped middle capture on `sampleUrlGap`: `": \"ht//tp\""` at
`[20, 30)`. -/
def urlNode : Node :=
  ⟨"type_annotation", 20, 30,
   ["variable_declarator", "lexical_declaration", "program"]⟩

/-- First annotation of `sampleUrlGap`: `": number"` at `[5, 13)`. -/
def annUrlA : Node :=
  ⟨"type_annotation", 5, 13, ["variable_declarator", "lexical_declaration", "program"]⟩

/-- Last annotation of `sampleUrlGap`: `": string"` at `[37, 45)`. -/
def annUrlB : Node :=
  ⟨"type_annotation", 37, 45, ["variable_declarator", "lexical_declaration", "program"]⟩

/-- The three captures on `sampleUrlGap`: `": number"` at `[5, 13)`,
the `"//"`-bearing `urlNode` at `[20, 30)`, `": string"` at `[37, 45)`. -/
def capsUrlGap : List (Node × String) :=
  [(annUrlA, "annotation"), (urlNode, "annotation"), (annUrlB, "annotation")]

/-- A byte string that is not valid UTF-8. -/
def sampleBad : Bytes := [255]

/-- A capture whose byte range decodes to invalid UTF-8, so
`contains_url` raises inside the splitter. -/
def capsBad : List (Node × String) :=
  [(⟨"type_annotation", 0, 1, ["program"]⟩, "annotation")]

/-- The empty random state: every queue is exhausted, so every
`binomial p` draw compares the variate `0` against `p` and every
`choice` picks index `0`. -/
def rng0 : RandomState := ⟨[], []⟩

/-- A tokenizer whose `decode` raises — models a decode failure at the
`tokenizer.decode(sample)` call of `permute`. -/
def tokRaise : Tokenizer :=
  ⟨fun _ => Except.error "UnicodeDecodeError in tokenizer.decode", fun _ => []⟩

/-- A tokenizer that decodes every token list to `sampleBad` and
encodes nothing — drives the splitter into its exception path. -/
def tokBad : Tokenizer := ⟨fun _ => Except.ok sampleBad, fun _ => []⟩

/-- A tokenizer that decodes every token list to `sampleSpaced` and
encodes a byte text by reading each byte as a token id. -/
def tokSpaced : Tokenizer :=
  ⟨fun _ => Except.ok sampleSpaced, fun bs => bs.map Int.ofNat⟩

/-- A tokenizer that decodes every token list to the empty byte string. -/
def tokEmpty : Tokenizer := ⟨fun _ => Except.ok [], fun _ => []⟩

/-! ## Helper lemmas -/

theorem getD_mem_of_lt {α : Type} {l : List α} {n : Nat} (d : α) (h : n < l.length) :
    l.getD n d ∈ l := by
  rw [List.getD_eq_getElem l d h]
  exact List.getElem_mem h

/-- Unfolding `is_capturable = ok true` into the two conditions of the
eligibility predicate. -/
theorem is_capturable_ok_true_iff (sample : Bytes) (node : Node) :
    is_capturable sample node = Except.ok true ↔
      is_child_type_ann node = false ∧ contains_url sample node = Except.ok false := by
  unfold is_capturable
  by_cases h : is_child_type_ann node
  · simp [h]
  · cases hc : contains_url sample node with
    | error e => simp [h, hc]
    | ok u => cases u <;> simp [h, hc]

/-- `is_splitable` and `is_capturable` are the same predicate. -/
theorem is_splitable_eq_capturable : is_splitable = is_capturable := rfl

/-- Membership in the filtered candidate list `captures_no_child`:
exactly the captured nodes that are capturable survive. -/
theorem mem_captures_no_child (sample : Bytes) (d : Node) :
    ∀ (captures : List (Node × String)) (cs : List Node),
      captures_no_child sample captures = Except.ok cs →
      (d ∈ cs ↔ ∃ nm, (d, nm) ∈ captures ∧ is_capturable sample d = Except.ok true) := by
  intro captures
  induction captures with
  | nil =>
    intro cs h
    simp only [captures_no_child, Except.ok.injEq] at h
    subst h; simp
  | cons hd tl ih =>
    obtain ⟨n0, nm0⟩ := hd
    intro cs h
    rw [captures_no_child] at h
    cases h1 : is_capturable sample n0 with
    | error e => rw [h1] at h; exact absurd h (by simp)
    | ok c =>
      rw [h1] at h
      cases h2 : captures_no_child sample tl with
      | error e => rw [h2] at h; exact absurd h (by simp)
      | ok tail =>
        rw [h2] at h
        simp only [Except.ok.injEq] at h
        subst h
        have ihd := ih tail h2
        cases c with
        | false =>
          rw [if_neg (by simp)]
          constructor
          · intro hmemtail
            obtain ⟨nm, hmem, hcap⟩ := ihd.1 hmemtail
            exact ⟨nm, List.mem_cons_of_mem _ hmem, hcap⟩
          · rintro ⟨nm, hmem, hcap⟩
            rcases List.mem_cons.1 hmem with heq | hmem'
            · exfalso
              have hd0 : d = n0 := congrArg Prod.fst heq
              rw [hd0] at hcap
              have := h1.symm.trans hcap
              simp at this
            · exact ihd.2 ⟨nm, hmem', hcap⟩
        | true =>
          rw [if_pos rfl]
          constructor
          · intro hmem
            rcases List.mem_cons.1 hmem with heq | hmemtail
            · exact ⟨nm0, List.mem_cons.2 (Or.inl (by rw [heq])), by rw [heq]; exact h1⟩
            · obtain ⟨nm, hm', hcap⟩ := ihd.1 hmemtail
              exact ⟨nm, List.mem_cons_of_mem _ hm', hcap⟩
          · rintro ⟨nm, hmem, hcap⟩
            rcases List.mem_cons.1 hmem with heq | hmem'
            · exact List.mem_cons.2 (Or.inl (congrArg Prod.fst heq))
            · exact List.mem_cons.2 (Or.inr (ihd.2 ⟨nm, hmem', hcap⟩))

/-- Every member of the filtered candidate list is capturable. -/
theorem capturable_of_mem_captures_no_child (sample : Bytes)
    (captures : List (Node × String)) (cs : List Node) (d : Node)
    (hcs : captures_no_child sample captures = Except.ok cs) (hd : d ∈ cs) :
    is_capturable sample d = Except.ok true := by
  obtain ⟨nm, _, hcap⟩ := (mem_captures_no_child sample d captures cs hcs).1 hd
  exact hcap

/-- When every node of the list is splitable, the `splittable_indices`
loop keeps every index. -/
theorem splittable_indices_from_all (sample : Bytes) :
    ∀ (cs : List Node) (k : Nat),
      (∀ n ∈ cs, is_splitable sample n = Except.ok true) →
      splittable_indices_from sample k cs = Except.ok (List.range' k cs.length) := by
  intro cs
  induction cs with
  | nil => intro k _; simp [splittable_indices_from]
  | cons n tl ih =>
    intro k hall
    rw [splittable_indices_from, hall n (List.mem_cons_self n tl),
      ih (k + 1) (fun m hm => hall m (List.mem_cons_of_mem _ hm))]
    simp [List.range'_succ]

/-- On a list produced by `captures_no_child`, the second filtering
pass keeps everything: the splittable indices are `0, …, len − 1`. -/
theorem splittable_indices_of_no_child (sample : Bytes)
    (captures : List (Node × String)) (cs : List Node)
    (hcs : captures_no_child sample captures = Except.ok cs) :
    splittable_indices sample cs = Except.ok (List.range' 0 cs.length) := by
  unfold splittable_indices
  apply splittable_indices_from_all
  intro n hn
  rw [is_splitable_eq_capturable]
  exact capturable_of_mem_captures_no_child sample captures cs n hcs hn

/-- The index the splitter draws: `choice` over the splittable indices
`0, …, len − 1`. -/
def pickIndex (cs : List Node) (np_rng : RandomState) : Nat :=
  (choice (List.range' 0 cs.length) np_rng).1

theorem pickIndex_lt (cs : List Node) (np_rng : RandomState) (h : cs ≠ []) :
    pickIndex cs np_rng < cs.length := by
  have hpos : 0 < cs.length := List.length_pos.2 h
  have hm : np_rng.ns.headD 0 % cs.length < cs.length := Nat.mod_lt _ hpos
  unfold pickIndex choice
  simp only [List.length_range']
  have hlt : np_rng.ns.headD 0 % cs.length < (List.range' 0 cs.length).length := by
    simpa using hm
  rw [List.getD_eq_getElem _ 0 hlt]
  simpa using hm

/-- A left fold that appends `f` of each element is the concatenation
of the mapped list onto the accumulator. -/
theorem foldl_append_eq_flatten {α : Type} (f : α → Bytes) :
    ∀ (l : List α) (a : Bytes),
      l.foldl (fun acc i => acc ++ f i) a = a ++ (l.map f).flatten := by
  intro l
  induction l with
  | nil => intro a; simp
  | cons x xs ih =>
    intro a
    simp only [List.foldl_cons, List.map_cons, List.flatten_cons]
    rw [ih (a ++ f x)]
    simp [List.append_assoc]

/-- The stripping loop is exactly the concatenation, in source order,
of the gaps between consecutive candidates, from `i` up to the
second-to-last candidate. -/
theorem gapLoop_eq_flatten (sample : Bytes) (cs : List Node) (i : Nat) :
    gapLoop sample cs i
      = ((List.range' i (cs.length - 1 - i)).map (gapAt sample cs)).flatten := by
  unfold gapLoop
  rw [foldl_append_eq_flatten]
  simp

/-- Each individual gap appears contiguously inside the stripping
loop's output. -/
theorem gapAt_infix_gapLoop (sample : Bytes) (cs : List Node) (st i : Nat)
    (hst : st ≤ i) (hi : i + 1 < cs.length) :
    gapAt sample cs i <:+: gapLoop sample cs st := by
  rw [gapLoop_eq_flatten]
  apply List.infix_of_mem_flatten
  apply List.mem_map_of_mem
  rw [List.mem_range'_1]
  omega

/-- Splitting a list at `a ≤ b ≤ length` and stitching the three
pieces back together is the identity. -/
theorem slice_reconstruct (l : Bytes) (a b : Nat) (hab : a ≤ b) :
    l.take a ++ slice l a b ++ l.drop b = l := by
  unfold slice
  have h1 : l.take a = (l.take b).take a := by
    rw [List.take_take, Nat.min_eq_left hab]
  rw [h1, List.take_append_drop, List.take_append_drop]

/-- A sub-range of a slice is an infix of the slice. -/
theorem slice_infix_slice (l : Bytes) (a b c d : Nat) (hac : a ≤ c) (hdb : d ≤ b) :
    slice l c d <:+: slice l a b := by
  have key : slice l c d = ((slice l a b).drop (c - a)).take (d - c) := by
    unfold slice
    rw [List.drop_drop]
    have hca : a + (c - a) = c := by omega
    rw [hca]
    simp only [List.drop_take]
    rw [List.take_take]
    have hmin : min (d - c) (b - c) = d - c := by omega
    rw [hmin]
  rw [key]
  exact (List.take_prefix _ _).isInfix.trans (List.drop_suffix _ _).isInfix

/-- Master inversion for a successful split: on a successfully
filtered candidate list, a `some` result of the splitter determines
the three byte segments and the final random state. -/
theorem gpms_inv (np_rng : RandomState) (sample : Bytes)
    (captures : List (Node × String)) (ssr : Rat) (cs : List Node)
    (p m s : Bytes) (rng' : RandomState) (pk : Nat) (picked : Node)
    (hcs : captures_no_child sample captures = Except.ok cs)
    (hpk : pk = pickIndex cs np_rng)
    (hpicked : picked = cs.getD pk default)
    (hres : get_prefix_middle_suffix np_rng sample captures ssr
        = Except.ok (some ((p, m, s), rng'))) :
    cs ≠ [] ∧
    p = (if (slice sample picked.start_byte picked.end_byte).head? = some 58
         then sample.take picked.start_byte ++ [58, 32]
         else sample.take picked.start_byte) ∧
    m = (if (slice sample picked.start_byte picked.end_byte).head? = some 58
         then (slice sample picked.start_byte picked.end_byte).tail.dropWhile isPySpace
         else slice sample picked.start_byte picked.end_byte) ∧
    s = (if np_rng.us.headD 0 < ssr
         then gapLoop sample cs pk
           ++ sample.drop (cs.getD (cs.length - 1) default).end_byte
         else sample.drop picked.end_byte) ∧
    rng' = ⟨np_rng.us.tail, np_rng.ns.tail⟩ := by
  unfold get_prefix_middle_suffix at hres
  rw [hcs] at hres
  dsimp only at hres
  rw [splittable_indices_of_no_child sample captures cs hcs] at hres
  dsimp only at hres
  by_cases hne : cs = []
  · subst hne
    simp at hres
  · refine ⟨hne, ?_⟩
    have hlen0 : ¬ ((List.range' 0 cs.length).length = 0) := by
      have := List.length_pos.2 hne
      simp only [List.length_range']
      omega
    rw [if_neg hlen0] at hres
    simp only [choice, binomial] at hres
    have hpk' : (List.range' 0 cs.length).getD
        (np_rng.ns.headD 0 % (List.range' 0 cs.length).length) 0 = pk := by
      rw [hpk]; rfl
    rw [hpk', ← hpicked] at hres
    simp only [decide_eq_true_eq] at hres
    by_cases hh : (slice sample picked.start_byte picked.end_byte).head? = some 58 <;>
      by_cases hss : np_rng.us.headD 0 < ssr
    · rw [if_pos hh, if_pos hh, if_pos hss] at hres
      rw [if_pos hh, if_pos hh, if_pos hss]
      split at hres
      · simp only [Except.ok.injEq, Option.some.injEq, Prod.mk.injEq] at hres
        exact ⟨hres.1.1.symm, hres.1.2.1.symm, hres.1.2.2.symm, hres.2.symm⟩
      · exact absurd hres (by simp)
    · rw [if_pos hh, if_pos hh, if_neg hss] at hres
      rw [if_pos hh, if_pos hh, if_neg hss]
      split at hres
      · simp only [Except.ok.injEq, Option.some.injEq, Prod.mk.injEq] at hres
        exact ⟨hres.1.1.symm, hres.1.2.1.symm, hres.1.2.2.symm, hres.2.symm⟩
      · exact absurd hres (by simp)
    · rw [if_neg hh, if_neg hh, if_pos hss] at hres
      rw [if_neg hh, if_neg hh, if_pos hss]
      split at hres
      · simp only [Except.ok.injEq, Option.some.injEq, Prod.mk.injEq] at hres
        exact ⟨hres.1.1.symm, hres.1.2.1.symm, hres.1.2.2.symm, hres.2.symm⟩
      · exact absurd hres (by simp)
    · rw [if_neg hh, if_neg hh, if_neg hss] at hres
      rw [if_neg hh, if_neg hh, if_neg hss]
      split at hres
      · simp only [Except.ok.injEq, Option.some.injEq, Prod.mk.injEq] at hres
        exact ⟨hres.1.1.symm, hres.1.2.1.symm, hres.1.2.2.symm, hres.2.symm⟩
      · exact absurd hres (by simp)

/-! ## The claims -/

/-- **C6**: sentinel token resolution is all-or-nothing.  For every
vocabulary, `get_fim_token_ids` either resolves all four sentinel
strings to ids, or — as soon as any one of `<fim_suffix>`,
`<fim_prefix>`, `<fim_middle>`, `<fim_pad>` is absent — returns all
four ids as absent; it never returns a partially resolved set. -/
theorem claim_C6 (vocab : String → Option Int) :
    (∃ s p m d, vocab "<fim_suffix>" = some s ∧ vocab "<fim_prefix>" = some p ∧
        vocab "<fim_middle>" = some m ∧ vocab "<fim_pad>" = some d ∧
        get_fim_token_ids vocab = (some s, some p, some m, some d))
    ∨ ((vocab "<fim_suffix>" = none ∨ vocab "<fim_prefix>" = none ∨
        vocab "<fim_middle>" = none ∨ vocab "<fim_pad>" = none)
       ∧ get_fim_token_ids vocab = (none, none, none, none)) := by
  unfold get_fim_token_ids
  cases hs : vocab "<fim_suffix>" <;> cases hp : vocab "<fim_prefix>" <;>
    cases hm : vocab "<fim_middle>" <;> cases hd : vocab "<fim_pad>" <;>
      simp

/-- **C1** counterexample: with the FIM coin flip succeeding
(`fim_rate = 1`) and no eligible span (the query yields no captures),
`permute` returns `none` — Python's `None` — and not the original
token sequence `[1, 2]`, so the `NO_ELIGIBLE_SPAN` outcome is
observably different from the `UNMODIFIED` pass-through. -/
theorem claim_C1_counterexample :
    permute tokEmpty (fun _ => []) [1, 2] rng0 7 8 9 1 0 0 = Except.ok (none, rng0)
    ∧ (none : Option (List Int)) ≠ some [1, 2] :=
  ⟨rfl, by simp⟩

/-- **C1** (amended): whenever the FIM coin flip succeeds, decoding
succeeds, and the splitter reports no eligible span, `permute` returns
the "no result" signal `(None, np_rng)`; the caller must substitute
the original sample itself, and the output differs from the
`UNMODIFIED` pass-through, which returns the original token
sequence. -/
theorem claim_C1_amended (tokenizer : Tokenizer) (query : Bytes → List (Node × String))
    (sample : List Int) (np_rng : RandomState) (sid pid mid : Int) (fr sr ssr : Rat)
    (db : Bytes)
    (hfim : np_rng.us.headD 0 < fr)
    (hdec : tokenizer.decode sample = Except.ok db)
    (hsplit : get_prefix_middle_suffix ⟨np_rng.us.tail, np_rng.ns⟩ db (query db) ssr
        = Except.ok none) :
    permute tokenizer query sample np_rng sid pid mid fr sr ssr
      = Except.ok (none, (⟨np_rng.us.tail, np_rng.ns⟩ : RandomState))
    ∧ (Except.ok (none, (⟨np_rng.us.tail, np_rng.ns⟩ : RandomState))
        ≠ (Except.ok (some sample, (⟨np_rng.us.tail, np_rng.ns⟩ : RandomState)) :
            Except String (Option (List Int) × RandomState))) := by
  constructor
  · unfold permute
    simp only [binomial, decide_eq_true_eq]
    rw [if_pos hfim, hdec]
    dsimp only
    rw [hsplit]
  · simp

/-- **C1** witness for the amended theorem, at a concrete input. -/
theorem claim_C1_witness :
    permute tokEmpty (fun _ => []) [3] rng0 7 8 9 1 0 0
      = Except.ok (none, (⟨[], []⟩ : RandomState)) :=
  (claim_C1_amended tokEmpty (fun _ => []) [3] rng0 7 8 9 1 0 0 []
    (by decide) rfl rfl).1

/-- **C2** counterexample: an exception raised by
`tokenizer.decode(sample)` — which the source evaluates *before* its
`try` block — propagates out of `permute` instead of being caught and
converted into a skip. -/
theorem claim_C2_counterexample :
    permute tokRaise (fun _ => []) [1, 2] rng0 7 8 9 1 0 0
      = Except.error "UnicodeDecodeError in tokenizer.decode" := rfl

/-- **C2** (amended): once the FIM coin flip succeeds, an exception
raised while running the split algorithm is caught at the permuter
boundary (and logged) and converted into the "no result" return
`(None, np_rng)` (the caller substitutes the original sample), but an
exception raised by `tokenizer.decode` — evaluated before the `try`
block — propagates to the caller. -/
theorem claim_C2_amended (tokenizer : Tokenizer) (query : Bytes → List (Node × String))
    (sample : List Int) (np_rng : RandomState) (sid pid mid : Int) (fr sr ssr : Rat)
    (hfim : np_rng.us.headD 0 < fr) :
    (∀ e, tokenizer.decode sample = Except.error e →
      permute tokenizer query sample np_rng sid pid mid fr sr ssr = Except.error e)
    ∧ (∀ db e rngE, tokenizer.decode sample = Except.ok db →
        get_prefix_middle_suffix ⟨np_rng.us.tail, np_rng.ns⟩ db (query db) ssr
          = Except.error (e, rngE) →
        permute tokenizer query sample np_rng sid pid mid fr sr ssr
          = Except.ok (none, rngE)) := by
  constructor
  · intro e hdec
    unfold permute
    simp only [binomial, decide_eq_true_eq]
    rw [if_pos hfim, hdec]
  · intro db e rngE hdec hsplit
    unfold permute
    simp only [binomial, decide_eq_true_eq]
    rw [if_pos hfim, hdec]
    dsimp only
    rw [hsplit]

/-- **C2** witness for the amended theorem: a capture whose byte range
is invalid UTF-8 makes `contains_url` raise inside the splitter; the
exception is caught and `permute` returns `(None, np_rng)`. -/
theorem claim_C2_witness :
    permute tokBad (fun _ => capsBad) [1, 2] rng0 7 8 9 1 0 0
      = Except.ok (none, (⟨[], []⟩ : RandomState)) :=
  (claim_C2_amended tokBad (fun _ => capsBad) [1, 2] rng0 7 8 9 1 0 0
    (by decide)).2 sampleBad "UnicodeDecodeError" ⟨[], []⟩ rfl rfl

/-- The prefix the code actually produces on the scenario input:
`"interface Foo { foo(x: "` — the migrated `": "` included. -/
def scenarioPrefixRun : Bytes :=
  [105, 110, 116, 101, 114, 102, 97, 99, 101, 32, 70, 111, 111, 32, 123, 32, 102,
   111, 111, 40, 120, 58, 32]

/-- The prefix the claim asserts for the scenario:
`"interface Foo { foo(x"`. -/
def scenarioPrefixClaimed : Bytes :=
  [105, 110, 116, 101, 114, 102, 97, 99, 101, 32, 70, 111, 111, 32, 123, 32, 102,
   111, 111, 40, 120]

/-- `"number"`. -/
def scenarioMiddle : Bytes := [110, 117, 109, 98, 101, 114]

/-- `", y: number): number; }"`. -/
def scenarioSuffix : Bytes :=
  [44, 32, 121, 58, 32, 110, 117, 109, 98, 101, 114, 41, 58, 32, 110, 117, 109, 98,
   101, 114, 59, 32, 125]

/-- **C8** counterexample: on the scenario input, selecting index 0
with stripping disabled, the splitter returns the prefix
`"interface Foo { foo(x: "` — not the claimed
`"interface Foo { foo(x"`: the colon and a space are migrated onto the
prefix. -/
theorem claim_C8_counterexample :
    get_prefix_middle_suffix rng0 sampleScenario capsScenario 0
      = Except.ok (some ((scenarioPrefixRun, scenarioMiddle, scenarioSuffix), rng0))
    ∧ scenarioPrefixRun ≠ scenarioPrefixClaimed :=
  ⟨rfl, by decide⟩

/-- **C8** (amended): the scenario input yields exactly three eligible
spans, and selecting index 0 with stripping disabled yields
`prefix = "interface Foo { foo(x: "`, `middle = "number"`,
`suffix = ", y: number): number; }"`. -/
theorem claim_C8_amended :
    captures_no_child sampleScenario capsScenario
        = Except.ok (capsScenario.map Prod.fst)
    ∧ (capsScenario.map Prod.fst).length = 3
    ∧ get_prefix_middle_suffix rng0 sampleScenario capsScenario 0
        = Except.ok (some ((scenarioPrefixRun, scenarioMiddle, scenarioSuffix), rng0)) :=
  ⟨rfl, rfl, rfl⟩

/-- **C3** counterexample: on `"let x:number"` (no space after the
colon) with stripping disabled, the splitter returns
`("let x: ", "number", "")`, and prefix ++ middle ++ suffix is
`"let x: number"` — not byte-for-byte the original sample. -/
theorem claim_C3_counterexample :
    get_prefix_middle_suffix rng0 sampleTight capsTight 0
      = Except.ok (some (([108, 101, 116, 32, 120, 58, 32],
          [110, 117, 109, 98, 101, 114], ([] : Bytes)), rng0))
    ∧ [108, 101, 116, 32, 120, 58, 32] ++ [110, 117, 109, 98, 101, 114] ++ ([] : Bytes)
        ≠ sampleTight :=
  ⟨rfl, by decide⟩

/-- **C3** (amended): with stripping not applied, concatenating the
returned prefix (which already carries the migrated `": "`), the
middle, and the suffix reconstructs the original sample byte-for-byte
*provided* the selected span's text is a colon followed by exactly one
space and then a non-whitespace type text (for other whitespace runs
after the colon, the run is normalized to a single space and the
reconstruction differs from the original). -/
theorem claim_C3_amended (np_rng : RandomState) (sample : Bytes)
    (captures : List (Node × String)) (ssr : Rat) (cs : List Node) (n : Node) (t : Bytes)
    (p m s : Bytes) (rng' : RandomState)
    (hcs : captures_no_child sample captures = Except.ok cs)
    (hn : cs.getD (pickIndex cs np_rng) default = n)
    (hkeep : ¬ (np_rng.us.headD 0 < ssr))
    (hse : n.start_byte ≤ n.end_byte)
    (hmid : slice sample n.start_byte n.end_byte = 58 :: 32 :: t)
    (hth : isPySpace (t.headD 0) = false)
    (hres : get_prefix_middle_suffix np_rng sample captures ssr
        = Except.ok (some ((p, m, s), rng'))) :
    p ++ m ++ s = sample := by
  obtain ⟨_, hp, hm, hs, _⟩ := gpms_inv np_rng sample captures ssr cs p m s rng'
    (pickIndex cs np_rng) n hcs rfl hn.symm hres
  rw [hmid] at hp hm
  rw [if_neg hkeep] at hs
  rw [List.head?_cons, if_pos rfl] at hp
  rw [List.head?_cons, if_pos rfl, List.tail_cons] at hm
  have hmt : m = t := by
    rw [hm, List.dropWhile_cons]
    rw [show isPySpace 32 = true from rfl]
    simp only [if_true]
    cases t with
    | nil => rfl
    | cons h tl =>
      simp only [List.headD_cons] at hth
      rw [List.dropWhile_cons, hth]
      simp
  have hrec := slice_reconstruct sample n.start_byte n.end_byte hse
  rw [hmid] at hrec
  rw [hp, hmt, hs]
  simp only [List.append_assoc, List.cons_append, List.nil_append] at hrec ⊢
  exact hrec

/-- **C3** witness for the amended theorem, at the concrete sample
`"let x: number"`. -/
theorem claim_C3_witness :
    [108, 101, 116, 32, 120, 58, 32] ++ [110, 117, 109, 98, 101, 114] ++ ([] : Bytes)
      = sampleSpaced :=
  claim_C3_amended rng0 sampleSpaced capsSpaced 0
    [⟨"type_annotation", 5, 13, ["variable_declarator", "lexical_declaration", "program"]⟩]
    ⟨"type_annotation", 5, 13, ["variable_declarator", "lexical_declaration", "program"]⟩
    [110, 117, 109, 98, 101, 114]
    [108, 101, 116, 32, 120, 58, 32] [110, 117, 109, 98, 101, 114] [] rng0
    rfl rfl (by decide) (by decide) rfl (by decide) rfl

/-- **C4**: whenever FIM is applied and a split is produced, the
output token sequence is, in SPM mode, exactly
`[prefix_sentinel, suffix_sentinel] ++ enc(suffix) ++ [middle_sentinel]
++ enc(prefix) ++ enc(middle)`, and in PSM mode exactly
`[prefix_sentinel] ++ enc(prefix) ++ [suffix_sentinel] ++ enc(suffix)
++ [middle_sentinel] ++ enc(middle)`. -/
theorem claim_C4 (tokenizer : Tokenizer) (query : Bytes → List (Node × String))
    (sample : List Int) (np_rng : RandomState) (sid pid mid : Int) (fr sr ssr : Rat)
    (db p m s : Bytes) (rng2 : RandomState)
    (hfim : np_rng.us.headD 0 < fr)
    (hdec : tokenizer.decode sample = Except.ok db)
    (hsplit : get_prefix_middle_suffix ⟨np_rng.us.tail, np_rng.ns⟩ db (query db) ssr
        = Except.ok (some ((p, m, s), rng2))) :
    permute tokenizer query sample np_rng sid pid mid fr sr ssr
      = Except.ok (some (if rng2.us.headD 0 < sr
          then [pid, sid] ++ tokenizer.encode s ++ [mid]
            ++ tokenizer.encode p ++ tokenizer.encode m
          else [pid] ++ tokenizer.encode p ++ [sid] ++ tokenizer.encode s
            ++ [mid] ++ tokenizer.encode m),
        (⟨rng2.us.tail, rng2.ns⟩ : RandomState)) := by
  unfold permute
  simp only [binomial, decide_eq_true_eq]
  rw [if_pos hfim, hdec]
  dsimp only
  rw [hsplit]
  dsimp only
  by_cases hspm : rng2.us.headD 0 < sr
  · rw [if_pos hspm, if_pos hspm]
  · rw [if_neg hspm, if_neg hspm]

/-- **C4** witness, at a concrete PSM run on `"let x: number"`. -/
theorem claim_C4_witness :
    permute tokSpaced (fun _ => capsSpaced) [1, 2] rng0 7 8 9 1 0 0
      = Except.ok (some [8, 108, 101, 116, 32, 120, 58, 32, 7, 9,
          110, 117, 109, 98, 101, 114], (⟨[], []⟩ : RandomState)) := by
  have h := claim_C4 tokSpaced (fun _ => capsSpaced) [1, 2] rng0 7 8 9 1 0 0
    sampleSpaced [108, 101, 116, 32, 120, 58, 32] [110, 117, 109, 98, 101, 114] []
    rng0 (by decide) rfl rfl
  rw [h]
  rfl

/-- **C5**: a captured node is in the eligible candidate list iff no
ancestor node is one of the three annotation kinds and its decoded
source text does not contain `"//"`; the second filtering pass keeps
every index of that list; and a node failing either condition is
dropped entirely, so for any random state the drawn index never
selects it. -/
theorem claim_C5 (sample : Bytes) (captures : List (Node × String)) (cs : List Node)
    (d : Node) (hcs : captures_no_child sample captures = Except.ok cs) :
    (d ∈ cs ↔ (∃ nm, (d, nm) ∈ captures) ∧ is_child_type_ann d = false
        ∧ contains_url sample d = Except.ok false)
    ∧ splittable_indices sample cs = Except.ok (List.range' 0 cs.length)
    ∧ ((is_child_type_ann d = true ∨ contains_url sample d = Except.ok true) →
        ∀ np_rng : RandomState, cs ≠ [] →
          cs.getD (pickIndex cs np_rng) default ≠ d) := by
  refine ⟨?_, splittable_indices_of_no_child sample captures cs hcs, ?_⟩
  · rw [mem_captures_no_child sample d captures cs hcs]
    constructor
    · rintro ⟨nm, hmem, hcap⟩
      have := (is_capturable_ok_true_iff sample d).1 hcap
      exact ⟨⟨nm, hmem⟩, this.1, this.2⟩
    · rintro ⟨⟨nm, hmem⟩, hchild, hurl⟩
      exact ⟨nm, hmem, (is_capturable_ok_true_iff sample d).2 ⟨hchild, hurl⟩⟩
  · intro hd np_rng hne
    have hdcs : d ∉ cs := by
      intro hmem
      have hcap := capturable_of_mem_captures_no_child sample captures cs d hcs hmem
      have := (is_capturable_ok_true_iff sample d).1 hcap
      rcases hd with hchild | hurl
      · rw [this.1] at hchild; exact Bool.false_ne_true hchild
      · rw [this.2] at hurl
        simp at hurl
    intro heq
    exact hdcs (heq ▸ getD_mem_of_lt default (pickIndex_lt cs np_rng hne))

/-- **C5** witness: on the sample with a `"//"`-bearing annotation
between two eligible ones, the drawn node is never the dropped
`urlNode`. -/
theorem claim_C5_witness :
    [annUrlA, annUrlB].getD (pickIndex [annUrlA, annUrlB] rng0) default ≠ urlNode :=
  (claim_C5 sampleUrlGap capsUrlGap [annUrlA, annUrlB] urlNode rfl).2.2
    (Or.inr rfl) rng0 (by decide)

/-- **C7** counterexample: on `sampleStrLit` with
`strip_suffix_rate = 1` and the first span selected, the stripped
suffix *does* contain the other eligible span's exact source text
`": number"` (it reappears inside the string literal lying in the
gap), refuting the "zero occurrences" part of the claim. -/
theorem claim_C7_counterexample :
    get_prefix_middle_suffix rng0 sampleStrLit capsStrLit 1
      = Except.ok (some ((
          [108, 101, 116, 32, 97, 58, 32],
          [110, 117, 109, 98, 101, 114],
          [59, 32, 108, 101, 116, 32, 115, 32, 61, 32, 34, 58, 32, 110, 117, 109, 98,
           101, 114, 34, 59, 32, 108, 101, 116, 32, 98, 59]), rng0))
    ∧ slice sampleStrLit 40 48 <:+:
        [59, 32, 108, 101, 116, 32, 115, 32, 61, 32, 34, 58, 32, 110, 117, 109, 98,
         101, 114, 34, 59, 32, 108, 101, 116, 32, 98, 59] :=
  ⟨rfl, by decide⟩

/-- **C7** (amended): with stripping applied, the produced suffix is
exactly the concatenation, in source order, of the inter-span gap
texts from the selected span on (each gap running from one eligible
span's end to the next eligible span's start, plus the final gap from
the last eligible span's end to the end of the sample); the other
eligible spans' byte ranges are excised, but another span's exact
text may still occur inside a gap, as the counterexample shows. -/
theorem claim_C7_amended (np_rng : RandomState) (sample : Bytes)
    (captures : List (Node × String)) (ssr : Rat) (cs : List Node)
    (p m s : Bytes) (rng' : RandomState)
    (hcs : captures_no_child sample captures = Except.ok cs)
    (hstrip : np_rng.us.headD 0 < ssr)
    (hres : get_prefix_middle_suffix np_rng sample captures ssr
        = Except.ok (some ((p, m, s), rng'))) :
    s = ((List.range' (pickIndex cs np_rng)
            (cs.length - 1 - pickIndex cs np_rng)).map (gapAt sample cs)).flatten
        ++ sample.drop (cs.getD (cs.length - 1) default).end_byte := by
  obtain ⟨_, _, _, hs, _⟩ := gpms_inv np_rng sample captures ssr cs p m s rng'
    (pickIndex cs np_rng) (cs.getD (pickIndex cs np_rng) default) hcs rfl rfl hres
  rw [if_pos hstrip] at hs
  rw [hs, gapLoop_eq_flatten]

/-- **C7** witness for the amended theorem, on the concrete two-span
sample. -/
theorem claim_C7_witness :
    [59, 32, 108, 101, 116, 32, 115, 32, 61, 32, 34, 58, 32, 110, 117, 109, 98, 101,
     114, 34, 59, 32, 108, 101, 116, 32, 98, 59]
      = ((List.range' (pickIndex [annStrA, annStrB] rng0)
            (([annStrA, annStrB] : List Node).length - 1
              - pickIndex [annStrA, annStrB] rng0)).map
              (gapAt sampleStrLit [annStrA, annStrB])).flatten
        ++ sampleStrLit.drop (([annStrA, annStrB] : List Node).getD
            (([annStrA, annStrB] : List Node).length - 1) default).end_byte :=
  claim_C7_amended rng0 sampleStrLit capsStrLit 1 [annStrA, annStrB]
    [108, 101, 116, 32, 97, 58, 32] [110, 117, 109, 98, 101, 114]
    [59, 32, 108, 101, 116, 32, 115, 32, 61, 32, 34, 58, 32, 110, 117, 109, 98, 101,
     114, 34, 59, 32, 108, 101, 116, 32, 98, 59] rng0
    rfl (by decide) rfl

/-- **C9**: when the candidate list holds exactly one eligible span,
the strip branch (whose loop is empty) and the keep branch of the
suffix computation coincide — both yield the remainder of the sample
after the span's end — so the splitter's suffix equals that remainder
for every random state, regardless of the Bernoulli draw. -/
theorem claim_C9 (np_rng : RandomState) (sample : Bytes)
    (captures : List (Node × String)) (ssr : Rat) (n : Node)
    (p m s : Bytes) (rng' : RandomState)
    (hcs : captures_no_child sample captures = Except.ok [n])
    (hres : get_prefix_middle_suffix np_rng sample captures ssr
        = Except.ok (some ((p, m, s), rng'))) :
    (gapLoop sample [n] (pickIndex [n] np_rng)
        ++ sample.drop (([n] : List Node).getD 0 default).end_byte
      = sample.drop n.end_byte)
    ∧ s = sample.drop n.end_byte := by
  have hpk : pickIndex [n] np_rng = 0 := by
    unfold pickIndex choice
    simp [Nat.mod_one]
  have hloop : gapLoop sample [n] 0 = [] := rfl
  constructor
  · rw [hpk, hloop]
    rfl
  · obtain ⟨_, _, _, hs, _⟩ := gpms_inv np_rng sample captures ssr [n] p m s rng'
      (pickIndex [n] np_rng) (([n] : List Node).getD (pickIndex [n] np_rng) default)
      hcs rfl rfl hres
    rw [hpk] at hs
    by_cases hss : np_rng.us.headD 0 < ssr
    · rw [if_pos hss] at hs
      rw [hs, hloop]
      rfl
    · rw [if_neg hss] at hs
      exact hs

/-- **C9** witness, on the single-span sample `"let x: number"` with
the strip branch drawn. -/
theorem claim_C9_witness :
    (gapLoop sampleSpaced
        [⟨"type_annotation", 5, 13,
          ["variable_declarator", "lexical_declaration", "program"]⟩]
        (pickIndex [⟨"type_annotation", 5, 13,
          ["variable_declarator", "lexical_declaration", "program"]⟩] rng0)
        ++ sampleSpaced.drop (([⟨"type_annotation", 5, 13,
            ["variable_declarator", "lexical_declaration", "program"]⟩] :
              List Node).getD 0 default).end_byte
      = sampleSpaced.drop 13)
    ∧ ([] : Bytes) = sampleSpaced.drop 13 :=
  claim_C9 rng0 sampleSpaced capsSpaced 1
    ⟨"type_annotation", 5, 13, ["variable_declarator", "lexical_declaration", "program"]⟩
    [108, 101, 116, 32, 120, 58, 32] [110, 117, 109, 98, 101, 114] [] rng0
    rfl rfl

/-- **C10**: with stripping applied, only the byte ranges of eligible
candidates are excised from the suffix: a captured annotation node
that the eligibility filter dropped (nested, or containing `"//"`)
is never itself excised — when its byte range lies in the gap between
two consecutive eligible candidates at or after the selected one, its
bytes appear verbatim (as a contiguous run) in the stripped suffix. -/
theorem claim_C10 (np_rng : RandomState) (sample : Bytes)
    (captures : List (Node × String)) (ssr : Rat) (cs : List Node) (i : Nat) (d : Node)
    (p m s : Bytes) (rng' : RandomState)
    (hcs : captures_no_child sample captures = Except.ok cs)
    (hstrip : np_rng.us.headD 0 < ssr)
    (hres : get_prefix_middle_suffix np_rng sample captures ssr
        = Except.ok (some ((p, m, s), rng')))
    (_hdrop : (∃ nm, (d, nm) ∈ captures) ∧ is_capturable sample d ≠ Except.ok true)
    (hpi : pickIndex cs np_rng ≤ i) (hi : i + 1 < cs.length)
    (hgap1 : (cs.getD i default).end_byte ≤ d.start_byte)
    (hgap2 : d.end_byte ≤ (cs.getD (i + 1) default).start_byte) :
    slice sample d.start_byte d.end_byte <:+: s := by
  obtain ⟨_, _, _, hs, _⟩ := gpms_inv np_rng sample captures ssr cs p m s rng'
    (pickIndex cs np_rng) (cs.getD (pickIndex cs np_rng) default) hcs rfl rfl hres
  rw [if_pos hstrip] at hs
  have h1 : slice sample d.start_byte d.end_byte <:+: gapAt sample cs i :=
    slice_infix_slice sample _ _ _ _ hgap1 hgap2
  have h2 : gapAt sample cs i <:+: gapLoop sample cs (pickIndex cs np_rng) :=
    gapAt_infix_gapLoop sample cs _ i hpi hi
  have h3 : gapLoop sample cs (pickIndex cs np_rng) <:+: s := by
    rw [hs]
    exact (List.prefix_append _ _).isInfix
  exact h1.trans (h2.trans h3)

/-- **C10** witness: on `sampleUrlGap`, the dropped `"//"`-bearing
annotation's bytes `": \"ht//tp\""` appear verbatim in the stripped
suffix. -/
theorem claim_C10_witness :
    slice sampleUrlGap 20 30 <:+:
      [59, 32, 108, 101, 116, 32, 117, 58, 32, 34, 104, 116, 47, 47, 116, 112, 34,
       59, 32, 108, 101, 116, 32, 98, 59] :=
  claim_C10 rng0 sampleUrlGap capsUrlGap 1 [annUrlA, annUrlB] 0 urlNode
    [108, 101, 116, 32, 97, 58, 32] [110, 117, 109, 98, 101, 114]
    [59, 32, 108, 101, 116, 32, 117, 58, 32, 34, 104, 116, 47, 47, 116, 112, 34,
     59, 32, 108, 101, 116, 32, 98, 59] rng0
    rfl (by decide) rfl
    ⟨⟨"annotation", by decide⟩,
      by rw [show is_capturable sampleUrlGap urlNode = Except.ok false from rfl]; simp⟩
    (by decide) (by decide) (by decide) (by decide)

end FimSpec
